import Mathlib

/-!
Shallow embedding of `scripts/validate_autoinstall.py`, a validator for
Ubuntu autoinstall NoCloud-Net seed directories.

The file system is modelled as a partial map `String → Option String`
(path to file text, `none` = file does not exist).  External libraries
(PyYAML's `safe_load`, `jsonschema`'s `Draft7Validator.iter_errors`,
`difflib`'s similarity ratio) are abstracted as function parameters of
the corresponding validators; everything written in the script itself is
translated directly.
-/

/-- Python whitespace characters (the set recognised by `str.strip`,
`str.isspace` and the regex class `\s`). -/
def isPySpaceChar (c : Char) : Bool :=
  c = ' ' || c = '\t' || c = '\n' || c = '\r' || c = '\x0b' || c = '\x0c' ||
  c = '\x1c' || c = '\x1d' || c = '\x1e' || c = '\x1f' || c = '\x85' || c = '\xa0' ||
  c = '\u1680' || ('\u2000' ≤ c && c ≤ '\u200a') || c = '\u2028' || c = '\u2029' ||
  c = '\u202f' || c = '\u205f' || c = '\u3000'

/-- Line-break characters recognised by Python `str.splitlines`. -/
def isPyLineBreakChar (c : Char) : Bool :=
  c = '\n' || c = '\r' || c = '\x0b' || c = '\x0c' ||
  c = '\x1c' || c = '\x1d' || c = '\x1e' || c = '\x85' ||
  c = '\u2028' || c = '\u2029'

/-- Worker for `pySplitlines`: accumulates the current line (reversed). -/
def pySplitlinesGo : List Char → List Char → List String
  | [], acc => if acc.isEmpty then [] else [String.mk acc.reverse]
  | '\r' :: '\n' :: rest, acc => String.mk acc.reverse :: pySplitlinesGo rest []
  | c :: rest, acc =>
    if isPyLineBreakChar c then String.mk acc.reverse :: pySplitlinesGo rest []
    else pySplitlinesGo rest (c :: acc)

/-- Python `str.splitlines()`: split on line boundaries (`\r\n` counts as a
single boundary), with no trailing empty line for a terminal newline. -/
def pySplitlines (text : String) : List String :=
  pySplitlinesGo text.toList []

/-- Python `str.strip()`: remove leading and trailing whitespace. -/
def pyStrip (s : String) : String :=
  String.mk (((s.toList.dropWhile isPySpaceChar).reverse.dropWhile isPySpaceChar).reverse)

/-- Python sequence comparison `a < b`: strict lexicographic order induced
by a strict order on the elements (a strict prefix is smaller). -/
def lexLt (lt : α → α → Bool) : List α → List α → Bool
  | [], [] => false
  | [], _ :: _ => true
  | _ :: _, [] => false
  | a :: as, b :: bs => if lt a b then true else if lt b a then false else lexLt lt as bs

/-- Python `a < b` on strings: code-point-wise lexicographic (the order
used by `sorted` on `str` and inside tuple comparison). -/
def pyStrLt (a b : String) : Bool :=
  lexLt (fun c d => decide (c < d)) a.toList b.toList

/-- Python `s.startswith(pre)`. -/
def pyStartsWith (s pre : String) : Bool :=
  List.isPrefixOf pre.toList s.toList

/-- Python `s.endswith(suf)`. -/
def pyEndsWith (s suf : String) : Bool :=
  List.isPrefixOf suf.toList.reverse s.toList.reverse

/-- Python `c in s` for a single character. -/
def pyContainsChar (s : String) (c : Char) : Bool :=
  s.toList.contains c

/-- Python `line.split(sep, 1)` on characters: the part before the first
separator and the part after it. -/
def splitFirst (sep : Char) : List Char → List Char × List Char
  | [] => ([], [])
  | c :: rest =>
    if c = sep then ([], rest)
    else
      let r := splitFirst sep rest
      (c :: r.1, r.2)

/-- Split a character list on every occurrence of `sep` (the segment
structure of Python `text.split(sep)`). -/
def splitOnChar (sep : Char) : List Char → List (List Char)
  | [] => [[]]
  | c :: rest =>
    let r := splitOnChar sep rest
    if c = sep then [] :: r
    else
      match r with
      | [] => [[c]]
      | h :: t => (c :: h) :: t

/-- Python dict assignment `d[k] = v`: overwrite in place if the key is
present, append otherwise. -/
def dictSet (d : List (String × String)) (k v : String) : List (String × String) :=
  if d.any (fun p => p.1 == k) then d.map (fun p => if p.1 == k then (k, v) else p)
  else d ++ [(k, v)]

/-- Python `d.get(k, dflt)` for a string-valued dict. -/
def dictGetD (d : List (String × String)) (k dflt : String) : String :=
  match d.find? (fun p => p.1 == k) with
  | some p => p.2
  | none => dflt

/-- `read_text`: read a file's text, returning the empty string when the
file does not exist (`FileNotFoundError` is caught). -/
def read_text (fs : String → Option String) (path : String) : String :=
  match fs path with
  | some text => text
  | none => ""

/-- `parse_kv_file`: very small parser for simple `key: value` files.
Blank lines and `#` comment lines are skipped, as are lines without a
colon; otherwise the line is split on the first colon and both halves are
stripped.  Later duplicate keys overwrite earlier ones. -/
def parse_kv_file (text : String) : List (String × String) :=
  (pySplitlines text).foldl (fun result raw_line =>
    let line := pyStrip raw_line
    if line = "" then result
    else if pyStartsWith line "#" then result
    else if !(pyContainsChar line ':') then result
    else
      let kv := splitFirst ':' line.toList
      dictSet result (pyStrip (String.mk kv.1)) (pyStrip (String.mk kv.2))) []

/-- `validate_meta`: validate a `meta-data` file. -/
def validate_meta (fs : String → Option String) (meta_path : String) : List String :=
  let text := read_text fs meta_path
  if text = "" then ["meta-data missing or empty"]
  else
    let data := parse_kv_file text
    let instance_id := pyStrip (dictGetD data "instance-id" "")
    let local_hostname := pyStrip (dictGetD data "local-hostname" "")
    let errors : List String := []
    let errors := if instance_id = "" then errors ++ ["meta-data: missing instance-id"] else errors
    let errors := if local_hostname = "" then errors ++ ["meta-data: missing local-hostname"] else errors
    let errors :=
      if instance_id ≠ "" ∧ local_hostname ≠ "" ∧ ¬ pyStartsWith instance_id local_hostname
      then errors ++ ["meta-data: instance-id should start with local-hostname (hint from sample)"]
      else errors
    errors

/-- The stripped value of one key of a parsed metadata file, as extracted
by `validate_meta` (`data.get(k, "").strip()`). -/
def metaKey (fs : String → Option String) (path k : String) : String :=
  pyStrip (dictGetD (parse_kv_file (read_text fs path)) k "")

/-- Parsed YAML document tree (the shape produced by `yaml.safe_load`):
mappings (string keys), sequences, and scalar leaves. -/
inductive Yaml where
  | null : Yaml
  | bool (b : Bool) : Yaml
  | int (n : Int) : Yaml
  | str (s : String) : Yaml
  | seq (items : List Yaml) : Yaml
  | map (entries : List (String × Yaml)) : Yaml

/-- Python truthiness of a parsed YAML value (`None`, `False`, `0`, `""`,
`[]` and `{}` are falsy); used by the `yaml.safe_load(text) or {}` idiom. -/
def yamlFalsy : Yaml → Bool
  | .null => true
  | .bool b => !b
  | .int n => n == 0
  | .str s => s == ""
  | .seq items => items.isEmpty
  | .map entries => entries.isEmpty

/-- Python `doc.get(k)` on a YAML mapping: the stored value, or `None`
(modelled by `Yaml.null`) when the key is absent. -/
def yamlMapGet (entries : List (String × Yaml)) (k : String) : Yaml :=
  match entries.find? (fun p => p.1 == k) with
  | some p => p.2
  | none => Yaml.null

/-- Regex word character (`\w`), ASCII portion: letters, digits, underscore. -/
def isWordChar (c : Char) : Bool :=
  c.isAlphanum || c = '_'

/-- Does one `^`-anchored segment match `\s*#cloud-config\b` (ignoring case)?
The anchor set of `re.MULTILINE` is the string start plus each position
after a newline, i.e. exactly the starts of the `splitOn "\n"` segments. -/
def markerLine (line : List Char) : Bool :=
  let cs := line.dropWhile isPySpaceChar
  ((cs.take 13).map Char.toLower == "#cloud-config".toList) &&
    (match cs.drop 13 with
     | [] => true
     | d :: _ => !(isWordChar d))

/-- `_RE_CLOUD_CONFIG.search(text)`: the multiline, case-insensitive regex
`^\s*#cloud-config\b` matches somewhere in the text.  A match whose `\s*`
spans newlines always contains a later anchor giving a single-segment
match, so searching segment-wise is equivalent. -/
def hasCloudConfigMarker (text : String) : Bool :=
  (splitOnChar '\n' text.toList).any markerLine

/-- One element of a `jsonschema` violation path: a mapping key or a
sequence index. -/
inductive PathElem where
  | idx (n : Nat) : PathElem
  | key (s : String) : PathElem

/-- Python `str(p)` for a path element. -/
def pathElemStr : PathElem → String
  | .idx n => toString n
  | .key s => s

/-- Comparison of path elements (ints before strings; Python would raise
on a mixed comparison, the model totalises it). -/
def pathElemLt : PathElem → PathElem → Bool
  | .idx m, .idx n => m < n
  | .idx _, .key _ => true
  | .key _, .idx _ => false
  | .key s, .key t => pyStrLt s t

/-- Python sequence comparison `a < b` on violation paths. -/
def pathLtList (a b : List PathElem) : Bool :=
  lexLt pathElemLt a b

/-- One schema violation as produced by `Draft7Validator.iter_errors`:
a document path (`err.path`) and a message (`err.message`). -/
structure SchemaViolation where
  path : List PathElem
  message : String

/-- The order used by `sorted(validator.iter_errors(...), key=lambda e: e.path)`:
a stable sort ascending by path. -/
def violationLe (a b : SchemaViolation) : Bool :=
  !(pathLtList b.path a.path)

/-- Format one violation: `user-data.autoinstall: <path joined by "/" or "(root)">: <message>`. -/
def formatViolation (e : SchemaViolation) : String :=
  let joined := String.intercalate "/" (e.path.map pathElemStr)
  let loc := if joined = "" then "(root)" else joined
  let msg := e.message
  s!"user-data.autoinstall: {loc}: {msg}"

/-- `(ratio(a, word), a) < (ratio(b, word), b)` — the tuple order used by
`heapq.nlargest` over `(score, candidate)` pairs in `difflib.get_close_matches`. -/
def ratioPairLt (ratio : String → String → ℚ) (word a b : String) : Bool :=
  decide (ratio a word < ratio b word) ||
    (decide (ratio a word = ratio b word) && pyStrLt a b)

/-- Fold selecting the `(score, candidate)`-maximal element. -/
def bestCandidate (ratio : String → String → ℚ) (word : String) :
    Option String → List String → Option String
  | best, [] => best
  | none, x :: xs => bestCandidate ratio word (some x) xs
  | some b, x :: xs =>
    bestCandidate ratio word (if ratioPairLt ratio word b x then some x else some b) xs

/-- `difflib.get_close_matches(word, possibilities, n=1, cutoff)` with the
similarity ratio abstracted: keep the candidates whose ratio reaches the
cutoff and return the single best one (ties broken towards the larger
string, as tuple comparison does), or `none`. -/
def get_close_matches1 (ratio : String → String → ℚ) (word : String)
    (possibilities : List String) (cutoff : ℚ) : Option String :=
  bestCandidate ratio word none (possibilities.filter (fun x => decide (cutoff ≤ ratio x word)))

/-- The (possibly empty) marker warning accumulated by `validate_user_data`
before YAML parsing: present exactly when the `#cloud-config` regex does
not match. -/
def markerErrors (text : String) : List String :=
  if !(hasCloudConfigMarker text) then
    ["user-data: first line should start with #cloud-config"]
  else []

/-- The identity-check errors of `validate_user_data`: empty when the
`autoinstall` mapping has an `identity` key, otherwise exactly one error
(a "did you mean" suggestion when `difflib` finds a close match among the
existing keys, a plain missing-key error otherwise). -/
def identityErrors (ratio : String → String → ℚ) (ai : List (String × Yaml)) : List String :=
  if ai.any (fun p => p.1 == "identity") then []
  else
    match get_close_matches1 ratio "identity" (ai.map (fun p => p.1)) (mkRat 4 5) with
    | some c => [s!"user-data.autoinstall: missing \x27identity\x27 (did you mean \x27{c}\x27?)"]
    | none => ["user-data.autoinstall: missing \x27identity\x27"]

/-- The schema-conformance messages of `validate_user_data`: every
violation produced by the evaluator, stably sorted by document path and
formatted. -/
def schemaMessages {σ : Type} (iter_errors : σ → Yaml → List SchemaViolation)
    (schema : σ) (autoinstall : Yaml) : List String :=
  (List.mergeSort (iter_errors schema autoinstall) violationLe).map formatViolation

/-- `load_schema`: load the JSON schema, failing when the file is missing
or empty or when `json.loads` (abstracted as `jsonLoads`) rejects it. -/
def load_schema {σ : Type} (jsonLoads : String → Except String σ)
    (fs : String → Option String) (schema_path : String) : Except String σ :=
  let text := read_text fs schema_path
  if text = "" then .error s!"Schema file not found: {schema_path}"
  else
    match jsonLoads text with
    | .ok s => .ok s
    | .error exc => .error s!"Invalid JSON schema at {schema_path}: {exc}"

/-- `validate_user_data`: validate a `user-data` file against the schema.
`safe_load` abstracts `yaml.safe_load` (an `Except` for parse errors) and
`iter_errors` abstracts `Draft7Validator(schema).iter_errors`. -/
def validate_user_data {σ : Type}
    (safe_load : String → Except String Yaml)
    (iter_errors : σ → Yaml → List SchemaViolation)
    (ratio : String → String → ℚ)
    (fs : String → Option String) (user_path : String) (schema : σ) : List String :=
  let text := read_text fs user_path
  if text = "" then ["user-data missing or empty"]
  else
    let errors : List String := markerErrors text
    match safe_load text with
    | .error exc => [s!"user-data: invalid YAML ({exc})"]
    | .ok loaded =>
      let doc := if yamlFalsy loaded then Yaml.map [] else loaded
      match doc with
      | Yaml.map entries =>
        (match yamlMapGet entries "autoinstall" with
         | Yaml.null => errors ++ ["user-data: missing top-level \x27autoinstall\x27 key"]
         | Yaml.map ai =>
           let errors := errors ++ identityErrors ratio ai
           let msgs := schemaMessages iter_errors schema (Yaml.map ai)
           errors ++ msgs
         | _ => errors ++ ["user-data: \x27autoinstall\x27 must be a mapping/object"])
      | _ => ["user-data: expected a YAML mapping at top-level"]

/-- Python `s.rstrip(os.sep)` with `os.sep = "/"`. -/
def rstripSlash (s : String) : String :=
  String.mk (s.toList.reverse.dropWhile (fun c => c == '/')).reverse

/-- `os.path.basename` (POSIX): the part after the last slash. -/
def basename (p : String) : String :=
  match (splitOnChar '/' p.toList).getLast? with
  | some s => String.mk s
  | none => ""

/-- `os.path.join` (POSIX) for two components. -/
def pathJoin (a b : String) : String :=
  if pyStartsWith b "/" then b
  else if a = "" || pyEndsWith a "/" then a ++ b
  else a ++ "/" ++ b

/-- `validate_host`: validate one host directory — metadata errors first,
then configuration errors, both always computed. -/
def validate_host {σ : Type}
    (safe_load : String → Except String Yaml)
    (iter_errors : σ → Yaml → List SchemaViolation)
    (ratio : String → String → ℚ)
    (fs : String → Option String) (host_dir : String) (schema : σ) : String × List String :=
  let host_name := basename (rstripSlash host_dir)
  let meta_path := pathJoin host_dir "meta-data"
  let user_path := pathJoin host_dir "user-data"
  (host_name, validate_meta fs meta_path ++ validate_user_data safe_load iter_errors ratio fs user_path schema)

/-- `find_host_dirs`: list the base directory (abstracted `isdir` and
`listdir` model `os.path.isdir` / `os.listdir`), drop hidden and `.tmp`
entries, sort the joined paths, keep directories. -/
def find_host_dirs (isdir : String → Bool) (listdir : String → List String)
    (base_dir : String) : List String :=
  if !(isdir base_dir) then []
  else
    let entries := List.mergeSort
      (((listdir base_dir).filter
          (fun name => !(pyStartsWith name ".") && !(pyEndsWith name ".tmp"))).map
        (fun name => pathJoin base_dir name))
      (fun a b => !(pyStrLt b a))
    entries.filter isdir

/-- The success marker printed for a passing host. -/
def okLine (host_name : String) : String := s!"[OK]   {host_name}"

/-- The failure header printed for a failing host. -/
def failLine (host_name : String) : String := s!"[FAIL] {host_name}"

/-- One indented error line. -/
def errLine (err : String) : String := s!"  - {err}"

/-- The lines printed for one failing host: header plus indented errors. -/
def failBlock (host_name : String) (errors : List String) : List String :=
  failLine host_name :: errors.map errLine

/-- The per-host report loop of `main`: returns the printed lines and the
`any_errors` flag; under `fail_fast` iteration stops at the first host
with a non-empty error list. -/
def runHosts (validateHost : String → String × List String) (fail_fast : Bool) :
    List String → List String × Bool
  | [] => ([], false)
  | host_dir :: rest =>
    let hr := validateHost host_dir
    let host_name := hr.1
    let errors := hr.2
    if errors.isEmpty then
      let tailRes := runHosts validateHost fail_fast rest
      (okLine host_name :: tailRes.1, tailRes.2)
    else
      let block := failBlock host_name errors
      if fail_fast then (block, true)
      else
        let tailRes := runHosts validateHost fail_fast rest
        (block ++ tailRes.1, true)

/-- `main`: load the schema (exit 2 on failure), discover host directories
(exit 2 when none), report each host and exit 1 when any host had errors,
0 otherwise.  Returns (printed lines, exit code). -/
def main_fn {σ : Type} (jsonLoads : String → Except String σ)
    (safe_load : String → Except String Yaml)
    (iter_errors : σ → Yaml → List SchemaViolation)
    (ratio : String → String → ℚ)
    (fs : String → Option String) (isdir : String → Bool) (listdir : String → List String)
    (hosts_dir schema_path : String) (fail_fast : Bool) : List String × Nat :=
  match load_schema jsonLoads fs schema_path with
  | .error exc => ([s!"Failed to load schema: {exc}"], 2)
  | .ok schema =>
    let host_dirs := find_host_dirs isdir listdir hosts_dir
    if host_dirs.isEmpty then ([s!"No host directories found under: {hosts_dir}"], 2)
    else
      let res := runHosts (fun d => validate_host safe_load iter_errors ratio fs d schema) fail_fast host_dirs
      (res.1, if res.2 then 1 else 0)


/-! ### Small concrete instances (file systems, parsers, schemas) used to
instantiate the abstract parameters in closed examples -/

/-- A file system holding exactly one file. -/
def fsOne (path text : String) : String → Option String :=
  fun p => if p = path then some text else none

/-- A YAML parser that returns a fixed tree for every text. -/
def slConst (y : Yaml) : String → Except String Yaml := fun _ => Except.ok y

/-- A YAML parser that fails on every text. -/
def slFail (msg : String) : String → Except String Yaml := fun _ => Except.error msg

/-- A schema evaluator returning a fixed violation list. -/
def ieConst (vs : List SchemaViolation) : Unit → Yaml → List SchemaViolation := fun _ _ => vs

/-- A JSON parser accepting every text (trivial schema). -/
def jlUnit : String → Except String Unit := fun _ => Except.ok ()

/-- A constant similarity ratio. -/
def ratioConst (q : ℚ) : String → String → ℚ := fun _ _ => q

/-- A similarity ratio giving `q` to one distinguished candidate. -/
def ratioIs (target : String) (q : ℚ) : String → String → ℚ :=
  fun a _ => if a = target then q else 0

/-- Seed tree with one host `web01` whose user-data lacks the
`#cloud-config` marker but is otherwise fully valid. -/
def fsHost : String → Option String := fun p =>
  if p = "hosts/web01/meta-data" then some "instance-id: web01-2024\nlocal-hostname: web01\n"
  else if p = "hosts/web01/user-data" then some "autoinstall:\n  identity:\n    hostname: web01\n"
  else if p = "schema.json" then some "SCHEMA"
  else none

/-- Directory predicate for the `fsHost` tree. -/
def isdirHost : String → Bool := fun p => p = "hosts" || p = "hosts/web01"

/-- Listing for the `fsHost` tree. -/
def listdirHost : String → List String := fun p => if p = "hosts" then ["web01"] else []

/-- The parse tree of `fsHost`'s user-data. -/
def yamlHost : Yaml :=
  Yaml.map [("autoinstall", Yaml.map [("identity", Yaml.map [("hostname", Yaml.str "web01")])])]

/-- Two-host tree (both hosts have no seed files at all) for the
fail-fast scenario; only the schema file exists. -/
def fsTwoHosts : String → Option String := fun p =>
  if p = "schema.json" then some "SCHEMA" else none

/-- Directory predicate for the two-host tree. -/
def isdirTwoHosts : String → Bool :=
  fun p => p = "hosts" || p = "hosts/host-a" || p = "hosts/host-b"

/-- Listing for the two-host tree. -/
def listdirTwoHosts : String → List String :=
  fun p => if p = "hosts" then ["host-a", "host-b"] else []

/-! ### Order lemmas for the comparison functions -/

theorem lexLt_asymm {α : Type} {lt : α → α → Bool}
    (hasym : ∀ a b, lt a b = true → lt b a = false) :
    ∀ as bs, lexLt lt as bs = true → lexLt lt bs as = false := by
  intro as
  induction as with
  | nil =>
    intro bs h
    cases bs with
    | nil => simp [lexLt] at h
    | cons b bs => simp [lexLt]
  | cons a as ih =>
    intro bs h
    cases bs with
    | nil => simp [lexLt] at h
    | cons b bs =>
      by_cases hab : lt a b = true
      · have hba := hasym a b hab
        simp [lexLt, hab, hba]
      · by_cases hba : lt b a = true
        · simp [lexLt, hab, hba] at h
        · replace hab : lt a b = false := by simpa using hab
          replace hba : lt b a = false := by simpa using hba
          simp only [lexLt, hab, hba, if_false] at h ⊢
          exact ih bs h

theorem lexLt_eq_of_ff {α : Type} {lt : α → α → Bool}
    (heq : ∀ a b, lt a b = false → lt b a = false → a = b) :
    ∀ as bs, lexLt lt as bs = false → lexLt lt bs as = false → as = bs := by
  intro as
  induction as with
  | nil =>
    intro bs h1 _
    cases bs with
    | nil => rfl
    | cons b bs => simp [lexLt] at h1
  | cons a as ih =>
    intro bs h1 h2
    cases bs with
    | nil => simp [lexLt] at h2
    | cons b bs =>
      by_cases hab : lt a b = true
      · simp [lexLt, hab] at h1
      · by_cases hba : lt b a = true
        · simp [lexLt, hba] at h2
        · replace hab : lt a b = false := by simpa using hab
          replace hba : lt b a = false := by simpa using hba
          have he := heq a b hab hba
          subst he
          simp only [lexLt, hab, hba, if_false] at h1 h2
          rw [ih bs h1 h2]

theorem lexLt_trans {α : Type} {lt : α → α → Bool}
    (hasym : ∀ a b, lt a b = true → lt b a = false)
    (htrans : ∀ a b c, lt a b = true → lt b c = true → lt a c = true)
    (heq : ∀ a b, lt a b = false → lt b a = false → a = b) :
    ∀ as bs cs, lexLt lt as bs = true → lexLt lt bs cs = true → lexLt lt as cs = true := by
  intro as
  induction as with
  | nil =>
    intro bs cs h1 h2
    cases bs with
    | nil => simp [lexLt] at h1
    | cons b bs =>
      cases cs with
      | nil => simp [lexLt] at h2
      | cons c cs => simp [lexLt]
  | cons a as ih =>
    intro bs cs h1 h2
    cases bs with
    | nil => simp [lexLt] at h1
    | cons b bs =>
      cases cs with
      | nil => simp [lexLt] at h2
      | cons c cs =>
        by_cases hab : lt a b = true
        · by_cases hbc : lt b c = true
          · have hac := htrans a b c hab hbc
            simp [lexLt, hac]
          · by_cases hcb : lt c b = true
            · simp [lexLt, hbc, hcb] at h2
            · have he := heq b c (by simpa using hbc) (by simpa using hcb)
              subst he
              simp [lexLt, hab]
        · by_cases hba : lt b a = true
          · simp [lexLt, hab, hba] at h1
          · have he := heq a b (by simpa using hab) (by simpa using hba)
            subst he
            have haa : lt a a = false := by
              by_cases h : lt a a = true
              · have := hasym a a h; simp [this] at h
              · simpa using h
            simp only [lexLt, haa, if_false] at h1 h2 ⊢
            by_cases hac : lt a c = true
            · simp [hac]
            · by_cases hca : lt c a = true
              · simp [hac, hca] at h2
              · have he2 := heq a c (by simpa using hac) (by simpa using hca)
                subst he2
                simp only [haa, if_false] at h2 ⊢
                exact ih bs cs h1 h2

theorem charLtB_asymm : ∀ (c d : Char), decide (c < d) = true → decide (d < c) = false := by
  intro c d h
  simp only [decide_eq_true_eq] at h
  simp only [decide_eq_false_iff_not]
  exact lt_asymm h

theorem charLtB_trans : ∀ (c d e : Char),
    decide (c < d) = true → decide (d < e) = true → decide (c < e) = true := by
  intro c d e h1 h2
  simp only [decide_eq_true_eq] at h1 h2 ⊢
  exact lt_trans h1 h2

theorem charLtB_eq : ∀ (c d : Char), decide (c < d) = false → decide (d < c) = false → c = d := by
  intro c d h1 h2
  simp only [decide_eq_false_iff_not] at h1 h2
  exact le_antisymm (le_of_not_lt h2) (le_of_not_lt h1)

theorem pyStrLt_asymm (a b : String) : pyStrLt a b = true → pyStrLt b a = false :=
  fun h => lexLt_asymm charLtB_asymm a.toList b.toList h

theorem pyStrLt_trans (a b c : String) :
    pyStrLt a b = true → pyStrLt b c = true → pyStrLt a c = true :=
  fun h1 h2 => lexLt_trans charLtB_asymm charLtB_trans charLtB_eq a.toList b.toList c.toList h1 h2

theorem pyStrLt_eq_of_ff (a b : String) :
    pyStrLt a b = false → pyStrLt b a = false → a = b := by
  intro h1 h2
  have h := lexLt_eq_of_ff charLtB_eq a.toList b.toList h1 h2
  have hd : a.data = b.data := h
  cases a; cases b
  cases hd
  rfl

theorem pathElemLt_asymm : ∀ (a b : PathElem), pathElemLt a b = true → pathElemLt b a = false := by
  intro a b h
  cases a <;> cases b <;> simp_all [pathElemLt]
  · omega
  · exact pyStrLt_asymm _ _ h

theorem pathElemLt_trans : ∀ (a b c : PathElem),
    pathElemLt a b = true → pathElemLt b c = true → pathElemLt a c = true := by
  intro a b c h1 h2
  cases a <;> cases b <;> cases c <;> simp_all [pathElemLt]
  · omega
  · exact pyStrLt_trans _ _ _ h1 h2

theorem pathElemLt_eq : ∀ (a b : PathElem),
    pathElemLt a b = false → pathElemLt b a = false → a = b := by
  intro a b h1 h2
  cases a <;> cases b <;> simp_all [pathElemLt]
  · omega
  · exact pyStrLt_eq_of_ff _ _ h1 h2

theorem pathLtList_asymm (a b : List PathElem) :
    pathLtList a b = true → pathLtList b a = false :=
  fun h => lexLt_asymm pathElemLt_asymm a b h

theorem pathLtList_trans (a b c : List PathElem) :
    pathLtList a b = true → pathLtList b c = true → pathLtList a c = true :=
  fun h1 h2 => lexLt_trans pathElemLt_asymm pathElemLt_trans pathElemLt_eq a b c h1 h2

theorem pathLtList_eq_of_ff (a b : List PathElem) :
    pathLtList a b = false → pathLtList b a = false → a = b :=
  fun h1 h2 => lexLt_eq_of_ff pathElemLt_eq a b h1 h2

theorem violationLe_trans : ∀ (a b c : SchemaViolation),
    violationLe a b = true → violationLe b c = true → violationLe a c = true := by
  intro a b c h1 h2
  simp only [violationLe, Bool.not_eq_true'] at h1 h2 ⊢
  by_cases hca : pathLtList c.path a.path = true
  · by_cases hbc : pathLtList b.path c.path = true
    · have := pathLtList_trans _ _ _ hbc hca
      rw [this] at h1
      exact absurd h1 (by simp)
    · have he := pathLtList_eq_of_ff c.path b.path h2 (by simpa using hbc)
      rw [← he] at h1
      rw [hca] at h1
      exact absurd h1 (by simp)
  · simpa using hca

theorem violationLe_total : ∀ (a b : SchemaViolation),
    (violationLe a b || violationLe b a) = true := by
  intro a b
  simp only [violationLe, Bool.not_eq_true', Bool.or_eq_true]
  by_cases h : pathLtList b.path a.path = true
  · right
    exact pathLtList_asymm _ _ h
  · left
    simpa using h

theorem pyStrLe_trans : ∀ (a b c : String),
    (!(pyStrLt b a)) = true → (!(pyStrLt c b)) = true → (!(pyStrLt c a)) = true := by
  intro a b c h1 h2
  simp only [Bool.not_eq_true'] at h1 h2 ⊢
  by_cases hca : pyStrLt c a = true
  · by_cases hbc : pyStrLt b c = true
    · have := pyStrLt_trans _ _ _ hbc hca
      rw [this] at h1
      exact absurd h1 (by simp)
    · have he := pyStrLt_eq_of_ff c b h2 (by simpa using hbc)
      rw [← he] at h1
      rw [hca] at h1
      exact absurd h1 (by simp)
  · simpa using hca

theorem pyStrLe_total : ∀ (a b : String), ((!(pyStrLt b a)) || (!(pyStrLt a b))) = true := by
  intro a b
  simp only [Bool.not_eq_true', Bool.or_eq_true]
  by_cases h : pyStrLt b a = true
  · right
    exact pyStrLt_asymm _ _ h
  · left
    simpa using h

/-! ### Lemmas about the fuzzy-match selection -/

theorem pyStrLt_irrefl (a : String) : pyStrLt a a = false := by
  unfold pyStrLt
  generalize a.toList = l
  induction l with
  | nil => simp [lexLt]
  | cons c cs ih => simp [lexLt, ih]

theorem ratioPairLt_irrefl (ratio : String → String → ℚ) (word a : String) :
    ratioPairLt ratio word a a = false := by
  simp [ratioPairLt, pyStrLt_irrefl]

theorem ratioPairLt_asymm (ratio : String → String → ℚ) (word a b : String) :
    ratioPairLt ratio word a b = true → ratioPairLt ratio word b a = false := by
  intro h
  rw [Bool.eq_false_iff]
  intro hcon
  simp only [ratioPairLt, Bool.or_eq_true, Bool.and_eq_true, decide_eq_true_eq] at h hcon
  rcases h with h | ⟨he, hs⟩ <;> rcases hcon with h2 | ⟨he2, hs2⟩
  · exact absurd h2 (lt_asymm h)
  · rw [he2] at h
    exact lt_irrefl _ h
  · rw [he] at h2
    exact lt_irrefl _ h2
  · rw [pyStrLt_asymm a b hs] at hs2
    cases hs2

theorem ratioPairLt_trans (ratio : String → String → ℚ) (word a b c : String) :
    ratioPairLt ratio word a b = true → ratioPairLt ratio word b c = true →
    ratioPairLt ratio word a c = true := by
  intro h1 h2
  simp only [ratioPairLt, Bool.or_eq_true, Bool.and_eq_true, decide_eq_true_eq] at h1 h2 ⊢
  rcases h1 with h1 | ⟨he1, hs1⟩ <;> rcases h2 with h2 | ⟨he2, hs2⟩
  · exact Or.inl (lt_trans h1 h2)
  · exact Or.inl (he2 ▸ h1)
  · exact Or.inl (he1 ▸ h2)
  · exact Or.inr ⟨he1.trans he2, pyStrLt_trans a b c hs1 hs2⟩

theorem bestCandidate_some_of_some (ratio : String → String → ℚ) (word : String) :
    ∀ (l : List String) (b : String), ∃ K, bestCandidate ratio word (some b) l = some K := by
  intro l
  induction l with
  | nil => intro b; exact ⟨b, rfl⟩
  | cons x xs ih =>
    intro b
    by_cases h : ratioPairLt ratio word b x = true
    · simpa [bestCandidate, h] using ih x
    · simpa [bestCandidate, h] using ih b

theorem bestCandidate_none (ratio : String → String → ℚ) (word : String) (l : List String) :
    bestCandidate ratio word none l = none → l = [] := by
  intro h
  cases l with
  | nil => rfl
  | cons x xs =>
    simp only [bestCandidate] at h
    obtain ⟨K, hK⟩ := bestCandidate_some_of_some ratio word xs x
    rw [hK] at h
    cases h

theorem bestCandidate_mem (ratio : String → String → ℚ) (word : String) :
    ∀ (l : List String) (b : Option String) (K : String),
      bestCandidate ratio word b l = some K → b = some K ∨ K ∈ l := by
  intro l
  induction l with
  | nil =>
    intro b K h
    cases b with
    | none => simp only [bestCandidate] at h; exact Or.inl h
    | some bb => simp only [bestCandidate] at h; exact Or.inl (by rw [h])
  | cons x xs ih =>
    intro b K h
    cases b with
    | none =>
      simp only [bestCandidate] at h
      rcases ih (some x) K h with h' | h'
      · right
        simp at h'
        simp [h']
      · right
        simp [h']
    | some bb =>
      simp only [bestCandidate] at h
      by_cases hlt : ratioPairLt ratio word bb x = true
      · rw [if_pos hlt] at h
        rcases ih (some x) K h with h' | h'
        · right
          simp at h'
          simp [h']
        · right
          simp [h']
      · rw [if_neg hlt] at h
        rcases ih (some bb) K h with h' | h'
        · exact Or.inl h'
        · right
          simp [h']

theorem bestCandidate_chain (ratio : String → String → ℚ) (word : String) :
    ∀ (l : List String) (b K : String),
      bestCandidate ratio word (some b) l = some K →
      b = K ∨ ratioPairLt ratio word b K = true := by
  intro l
  induction l with
  | nil =>
    intro b K h
    simp only [bestCandidate] at h
    exact Or.inl (by injection h)
  | cons x xs ih =>
    intro b K h
    simp only [bestCandidate] at h
    by_cases hlt : ratioPairLt ratio word b x = true
    · rw [if_pos hlt] at h
      rcases ih x K h with h' | h'
      · right
        rw [← h']
        exact hlt
      · right
        exact ratioPairLt_trans ratio word b x K hlt h'
    · rw [if_neg hlt] at h
      exact ih b K h

theorem bestCandidate_max (ratio : String → String → ℚ) (word : String) :
    ∀ (l : List String) (b : Option String) (K : String),
      bestCandidate ratio word b l = some K →
      ∀ x ∈ l, ratioPairLt ratio word K x = false := by
  intro l
  induction l with
  | nil => intro b K _ x hx; cases hx
  | cons x xs ih =>
    intro b K h y hy
    have step : ∀ (c : String), bestCandidate ratio word (some c) xs = some K →
        (ratioPairLt ratio word c x = false ∨ c = x) →
        ratioPairLt ratio word K x = false := by
      intro c hc hcx
      rcases bestCandidate_chain ratio word xs c K hc with he | hlt
      · rcases hcx with hcx | hcx
        · rw [← he]
          exact hcx
        · rw [← he, hcx]
          exact ratioPairLt_irrefl ratio word x
      · rcases hcx with hcx | hcx
        · rw [Bool.eq_false_iff]
          intro hKx
          have h2 := ratioPairLt_trans ratio word c K x hlt hKx
          rw [h2] at hcx
          cases hcx
        · rw [← hcx]
          exact ratioPairLt_asymm ratio word c K hlt
    rcases List.mem_cons.mp hy with hyx | hymem
    · rw [hyx]
      cases b with
      | none =>
        simp only [bestCandidate] at h
        exact step x h (Or.inr rfl)
      | some bb =>
        simp only [bestCandidate] at h
        by_cases hlt : ratioPairLt ratio word bb x = true
        · rw [if_pos hlt] at h
          exact step x h (Or.inr rfl)
        · rw [if_neg hlt] at h
          exact step bb h (Or.inl (by simpa using hlt))
    · cases b with
      | none =>
        simp only [bestCandidate] at h
        exact ih (some x) K h y hymem
      | some bb =>
        simp only [bestCandidate] at h
        exact ih _ K h y hymem

theorem get_close_matches1_some (ratio : String → String → ℚ) (word : String)
    (poss : List String) (cutoff : ℚ) (K : String)
    (h : get_close_matches1 ratio word poss cutoff = some K) :
    K ∈ poss ∧ cutoff ≤ ratio K word ∧
      ∀ x ∈ poss, cutoff ≤ ratio x word → ratioPairLt ratio word K x = false := by
  unfold get_close_matches1 at h
  have hmem := bestCandidate_mem ratio word _ none K h
  rcases hmem with hmem | hmem
  · cases hmem
  · have hm := List.mem_filter.mp hmem
    refine ⟨hm.1, by simpa using hm.2, ?_⟩
    intro x hx hcut
    exact bestCandidate_max ratio word _ none K h x (List.mem_filter.mpr ⟨hx, by simpa using hcut⟩)

theorem get_close_matches1_none (ratio : String → String → ℚ) (word : String)
    (poss : List String) (cutoff : ℚ)
    (h : get_close_matches1 ratio word poss cutoff = none) :
    ∀ x ∈ poss, ¬ (cutoff ≤ ratio x word) := by
  intro x hx hcut
  unfold get_close_matches1 at h
  have hempty := bestCandidate_none ratio word _ h
  have : x ∈ poss.filter (fun x => decide (cutoff ≤ ratio x word)) :=
    List.mem_filter.mpr ⟨hx, by simpa using hcut⟩
  rw [hempty] at this
  cases this

/-! ### Lemmas about the report loop and the scanner -/

theorem runHosts_flag (vh : String → String × List String) (ff : Bool) :
    ∀ l : List String, (runHosts vh ff l).2 = l.any (fun d => !(vh d).2.isEmpty) := by
  intro l
  induction l with
  | nil => rfl
  | cons d rest ih =>
    simp only [runHosts, List.any_cons]
    by_cases h : (vh d).2.isEmpty = true
    · simp [h, ih]
    · replace h : (vh d).2.isEmpty = false := by simpa using h
      cases ff <;> simp [h, ih]

theorem runHosts_append_pass (vh : String → String × List String) (ff : Bool) :
    ∀ (pre l : List String), (∀ d ∈ pre, (vh d).2 = []) →
      runHosts vh ff (pre ++ l) =
        (pre.map (fun d => okLine (vh d).1) ++ (runHosts vh ff l).1, (runHosts vh ff l).2) := by
  intro pre
  induction pre with
  | nil => intro l _; simp
  | cons d rest ih =>
    intro l hpass
    have hd : (vh d).2 = [] := hpass d (List.mem_cons_self d rest)
    have hrest : ∀ x ∈ rest, (vh x).2 = [] := fun x hx => hpass x (List.mem_cons_of_mem d hx)
    simp only [List.cons_append, runHosts, hd, List.isEmpty_nil, if_true, List.append_eq]
    rw [ih l hrest]
    simp

theorem runHosts_fail_fast_stop (vh : String → String × List String) (d : String)
    (l : List String) (hd : (vh d).2 ≠ []) :
    runHosts vh true (d :: l) = (failBlock (vh d).1 (vh d).2, true) := by
  have h : (vh d).2.isEmpty = false := by
    cases hvd : (vh d).2 with
    | nil => exact absurd hvd hd
    | cons a as => rfl
  simp [runHosts, h]

theorem runHosts_mem_fail (vh : String → String × List String) :
    ∀ (l : List String) (d : String), d ∈ l → (vh d).2 ≠ [] →
      failLine (vh d).1 ∈ (runHosts vh false l).1 ∧ (runHosts vh false l).2 = true := by
  intro l
  induction l with
  | nil => intro d hd _; cases hd
  | cons x xs ih =>
    intro d hd hfail
    by_cases hx : (vh x).2.isEmpty = true
    · have hxpass : (vh x).2 = [] := by simpa using hx
      rcases List.mem_cons.mp hd with he | hmem
      · rw [he] at hfail
        exact absurd hxpass hfail
      · have hih := ih d hmem hfail
        refine ⟨?_, ?_⟩
        · simp only [runHosts, hxpass, List.isEmpty_nil, if_true]
          exact List.mem_cons_of_mem _ hih.1
        · simp only [runHosts, hxpass, List.isEmpty_nil, if_true]
          exact hih.2
    · have hxie : (vh x).2.isEmpty = false := by simpa using hx
      refine ⟨?_, ?_⟩
      · simp only [runHosts, hxie, Bool.false_eq_true, if_false]
        rcases List.mem_cons.mp hd with he | hmem
        · rw [he]
          exact List.mem_append_left _ (by simp [failBlock])
        · have hih := ih d hmem hfail
          exact List.mem_append_right _ hih.1
      · simp only [runHosts, hxie, Bool.false_eq_true, if_false]

theorem find_host_dirs_sorted (isdir : String → Bool) (listdir : String → List String)
    (base_dir : String) :
    List.Pairwise (fun a b => pyStrLt b a = false) (find_host_dirs isdir listdir base_dir) := by
  unfold find_host_dirs
  by_cases h : isdir base_dir = true
  · have hs : List.Pairwise (fun a b : String => (!(pyStrLt b a)) = true)
        (List.mergeSort
          (((listdir base_dir).filter
              (fun name => !(pyStartsWith name ".") && !(pyEndsWith name ".tmp"))).map
            (fun name => pathJoin base_dir name))
          (fun a b => !(pyStrLt b a))) :=
      List.sorted_mergeSort (fun a b c h1 h2 => pyStrLe_trans a b c h1 h2)
        (fun a b => pyStrLe_total a b) _
    have hp := hs.filter isdir
    simp only [h, Bool.not_true, Bool.false_eq_true, if_false]
    exact hp.imp (fun hab => by simpa using hab)
  · replace h : isdir base_dir = false := by simpa using h
    simp [h]

/-! ### Case lemmas for `validate_user_data` -/

theorem validate_user_data_empty {σ : Type}
    (safe_load : String → Except String Yaml) (iter_errors : σ → Yaml → List SchemaViolation)
    (ratio : String → String → ℚ) (fs : String → Option String) (user_path : String) (schema : σ)
    (htext : read_text fs user_path = "") :
    validate_user_data safe_load iter_errors ratio fs user_path schema =
      ["user-data missing or empty"] := by
  simp [validate_user_data, htext]

theorem validate_user_data_parse_error {σ : Type}
    (safe_load : String → Except String Yaml) (iter_errors : σ → Yaml → List SchemaViolation)
    (ratio : String → String → ℚ) (fs : String → Option String) (user_path : String) (schema : σ)
    (exc : String)
    (htext : read_text fs user_path ≠ "")
    (hload : safe_load (read_text fs user_path) = Except.error exc) :
    validate_user_data safe_load iter_errors ratio fs user_path schema =
      [s!"user-data: invalid YAML ({exc})"] := by
  simp only [validate_user_data]
  rw [if_neg htext, hload]

theorem validate_user_data_nonmap_root {σ : Type}
    (safe_load : String → Except String Yaml) (iter_errors : σ → Yaml → List SchemaViolation)
    (ratio : String → String → ℚ) (fs : String → Option String) (user_path : String) (schema : σ)
    (v : Yaml)
    (htext : read_text fs user_path ≠ "")
    (hload : safe_load (read_text fs user_path) = Except.ok v)
    (hfalsy : yamlFalsy v = false)
    (hnotmap : ∀ entries, v ≠ Yaml.map entries) :
    validate_user_data safe_load iter_errors ratio fs user_path schema =
      ["user-data: expected a YAML mapping at top-level"] := by
  simp only [validate_user_data]
  rw [if_neg htext, hload]
  cases v with
  | map entries => exact absurd rfl (hnotmap entries)
  | null => simp [yamlFalsy] at hfalsy
  | bool b => simp only [yamlFalsy] at hfalsy; simp [yamlFalsy, hfalsy]
  | int n => simp only [yamlFalsy] at hfalsy; simp [yamlFalsy, hfalsy]
  | str s => simp only [yamlFalsy] at hfalsy; simp [yamlFalsy, hfalsy]
  | seq items => simp only [yamlFalsy] at hfalsy; simp [yamlFalsy, hfalsy]

theorem validate_user_data_map_root {σ : Type}
    (safe_load : String → Except String Yaml) (iter_errors : σ → Yaml → List SchemaViolation)
    (ratio : String → String → ℚ) (fs : String → Option String) (user_path : String) (schema : σ)
    (m : List (String × Yaml))
    (htext : read_text fs user_path ≠ "")
    (hload : safe_load (read_text fs user_path) = Except.ok (Yaml.map m)) :
    validate_user_data safe_load iter_errors ratio fs user_path schema =
      (match yamlMapGet m "autoinstall" with
       | Yaml.null =>
         markerErrors (read_text fs user_path) ++
           ["user-data: missing top-level \x27autoinstall\x27 key"]
       | Yaml.map ai =>
         markerErrors (read_text fs user_path) ++ identityErrors ratio ai ++
           schemaMessages iter_errors schema (Yaml.map ai)
       | _ =>
         markerErrors (read_text fs user_path) ++
           ["user-data: \x27autoinstall\x27 must be a mapping/object"]) := by
  simp only [validate_user_data]
  rw [if_neg htext, hload]
  by_cases hf : yamlFalsy (Yaml.map m) = true
  · have hm : m = [] := by simpa [yamlFalsy] using hf
    subst hm
    simp only [hf, if_true]
  · replace hf : yamlFalsy (Yaml.map m) = false := by simpa using hf
    simp only [hf, Bool.false_eq_true, if_false]

/-! ### Claim theorems -/

theorem validate_meta_eq (fs : String → Option String) (path : String)
    (h : read_text fs path ≠ "") :
    validate_meta fs path =
      (if metaKey fs path "instance-id" = "" then ["meta-data: missing instance-id"] else []) ++
      (if metaKey fs path "local-hostname" = "" then ["meta-data: missing local-hostname"] else []) ++
      (if metaKey fs path "instance-id" ≠ "" ∧ metaKey fs path "local-hostname" ≠ "" ∧
          ¬ pyStartsWith (metaKey fs path "instance-id") (metaKey fs path "local-hostname")
       then ["meta-data: instance-id should start with local-hostname (hint from sample)"]
       else []) := by
  simp only [validate_meta, metaKey]
  rw [if_neg h]
  split_ifs <;> simp

/-- C2: for a metadata file, empty (or missing) text yields exactly the
single error "meta-data missing or empty"; otherwise the missing-key
errors appear exactly once each, iff the corresponding stripped value is
empty; the advisory prefix error appears exactly once iff both values are
non-empty and `instance-id` does not start with `local-hostname`; no
other error is ever produced; valid metadata yields no errors. -/
theorem validate_meta_spec (fs : String → Option String) (path : String) :
    (read_text fs path = "" →
      validate_meta fs path = ["meta-data missing or empty"]) ∧
    (read_text fs path ≠ "" →
      ((validate_meta fs path).count "meta-data: missing instance-id" =
        if metaKey fs path "instance-id" = "" then 1 else 0) ∧
      ((validate_meta fs path).count "meta-data: missing local-hostname" =
        if metaKey fs path "local-hostname" = "" then 1 else 0) ∧
      ((validate_meta fs path).count
          "meta-data: instance-id should start with local-hostname (hint from sample)" =
        if metaKey fs path "instance-id" ≠ "" ∧ metaKey fs path "local-hostname" ≠ "" ∧
            ¬ pyStartsWith (metaKey fs path "instance-id") (metaKey fs path "local-hostname")
        then 1 else 0) ∧
      (∀ e ∈ validate_meta fs path,
        e = "meta-data: missing instance-id" ∨ e = "meta-data: missing local-hostname" ∨
          e = "meta-data: instance-id should start with local-hostname (hint from sample)") ∧
      (metaKey fs path "instance-id" ≠ "" → metaKey fs path "local-hostname" ≠ "" →
        pyStartsWith (metaKey fs path "instance-id") (metaKey fs path "local-hostname") →
        validate_meta fs path = [])) := by
  constructor
  · intro h
    simp [validate_meta, h]
  · intro h
    rw [validate_meta_eq fs path h]
    refine ⟨?_, ?_, ?_, ?_, ?_⟩
    · split_ifs <;> simp_all [List.count_cons, List.count_nil]
    · split_ifs <;> simp_all [List.count_cons, List.count_nil]
    · split_ifs <;> simp_all [List.count_cons, List.count_nil]
    · intro e he
      split_ifs at he <;> (simp_all; try tauto)
    · intro h1 h2 h3
      rw [if_neg h1, if_neg h2, if_neg (by simp [h3])]
      rfl

/-- Closed witness for `validate_meta_spec`: a concrete valid metadata
file produces no errors, and a concrete empty one produces the single
missing-or-empty error. -/
theorem validate_meta_spec_witness :
    validate_meta (fsOne "hosts/web01/meta-data"
        "instance-id: web01-2024\nlocal-hostname: web01\n") "hosts/web01/meta-data" = [] ∧
    validate_meta (fsOne "a" "x") "b" = ["meta-data missing or empty"] :=
  ⟨((validate_meta_spec (fsOne "hosts/web01/meta-data"
        "instance-id: web01-2024\nlocal-hostname: web01\n") "hosts/web01/meta-data").2
      (by decide)).2.2.2.2 (by decide) (by decide) (by decide),
   (validate_meta_spec (fsOne "a" "x") "b").1 (by decide)⟩

/-- C1: `main` exits 2 exactly when the schema fails to load or no host
directory is discovered; given a loaded schema and a non-empty discovery,
it exits 1 iff some discovered host has a non-empty error sequence and 0
iff every discovered host has an empty one. -/
theorem main_exit_code_spec {σ : Type} (jsonLoads : String → Except String σ)
    (safe_load : String → Except String Yaml) (iter_errors : σ → Yaml → List SchemaViolation)
    (ratio : String → String → ℚ) (fs : String → Option String)
    (isdir : String → Bool) (listdir : String → List String)
    (hosts_dir schema_path : String) (fail_fast : Bool) :
    (∀ exc, load_schema jsonLoads fs schema_path = Except.error exc →
      (main_fn jsonLoads safe_load iter_errors ratio fs isdir listdir
        hosts_dir schema_path fail_fast).2 = 2) ∧
    (∀ schema, load_schema jsonLoads fs schema_path = Except.ok schema →
      (find_host_dirs isdir listdir hosts_dir = [] →
        (main_fn jsonLoads safe_load iter_errors ratio fs isdir listdir
          hosts_dir schema_path fail_fast).2 = 2) ∧
      (find_host_dirs isdir listdir hosts_dir ≠ [] →
        ((main_fn jsonLoads safe_load iter_errors ratio fs isdir listdir
            hosts_dir schema_path fail_fast).2 = 1 ↔
          ∃ d ∈ find_host_dirs isdir listdir hosts_dir,
            (validate_host safe_load iter_errors ratio fs d schema).2 ≠ []) ∧
        ((main_fn jsonLoads safe_load iter_errors ratio fs isdir listdir
            hosts_dir schema_path fail_fast).2 = 0 ↔
          ∀ d ∈ find_host_dirs isdir listdir hosts_dir,
            (validate_host safe_load iter_errors ratio fs d schema).2 = []))) := by
  constructor
  · intro exc hexc
    simp [main_fn, hexc]
  · intro schema hok
    constructor
    · intro hempty
      simp [main_fn, hok, hempty]
    · intro hne
      have hflag := runHosts_flag
        (fun d => validate_host safe_load iter_errors ratio fs d schema) fail_fast
        (find_host_dirs isdir listdir hosts_dir)
      constructor
      · constructor
        · intro h1
          simp only [main_fn, hok] at h1
          rw [if_neg (by simpa using hne)] at h1
          by_cases hb : (runHosts (fun d => validate_host safe_load iter_errors ratio fs d schema)
              fail_fast (find_host_dirs isdir listdir hosts_dir)).2 = true
          · rw [hflag] at hb
            rcases List.any_eq_true.mp hb with ⟨d, hd, hdb⟩
            refine ⟨d, hd, ?_⟩
            intro hnil
            rw [hnil] at hdb
            simp at hdb
          · rw [Bool.not_eq_true] at hb
            rw [hb] at h1
            simp at h1
        · rintro ⟨d, hd, hdne⟩
          simp only [main_fn, hok]
          rw [if_neg (by simpa using hne)]
          have : (runHosts (fun d => validate_host safe_load iter_errors ratio fs d schema)
              fail_fast (find_host_dirs isdir listdir hosts_dir)).2 = true := by
            rw [hflag]
            refine List.any_eq_true.mpr ⟨d, hd, ?_⟩
            simpa using hdne
          rw [this]
          rfl
      · constructor
        · intro h0
          intro d hd
          simp only [main_fn, hok] at h0
          rw [if_neg (by simpa using hne)] at h0
          by_cases hb : (runHosts (fun d => validate_host safe_load iter_errors ratio fs d schema)
              fail_fast (find_host_dirs isdir listdir hosts_dir)).2 = true
          · rw [hb] at h0
            simp at h0
          · rw [Bool.not_eq_true, hflag] at hb
            by_contra hdnil
            have : (find_host_dirs isdir listdir hosts_dir).any
                (fun d => !(validate_host safe_load iter_errors ratio fs d schema).2.isEmpty) = true :=
              List.any_eq_true.mpr ⟨d, hd, by simpa using hdnil⟩
            rw [this] at hb
            cases hb
        · intro hall
          simp only [main_fn, hok]
          rw [if_neg (by simpa using hne)]
          have : (runHosts (fun d => validate_host safe_load iter_errors ratio fs d schema)
              fail_fast (find_host_dirs isdir listdir hosts_dir)).2 = false := by
            rw [hflag]
            rw [List.any_eq_false]
            intro d hd
            simp [hall d hd]
          rw [this]
          rfl

/-- Closed witness for `main_exit_code_spec`: with no schema file on disk
the run exits 2. -/
theorem main_exit_code_spec_witness :
    (main_fn jlUnit (slFail "x") (ieConst []) (ratioConst 0) (fun _ => none)
      (fun _ => false) (fun _ => []) "hosts" "schema.json" false).2 = 2 :=
  (main_exit_code_spec jlUnit (slFail "x") (ieConst []) (ratioConst 0) (fun _ => none)
    (fun _ => false) (fun _ => []) "hosts" "schema.json" false).1
    "Schema file not found: schema.json" (by rfl)

/-- C3 counterexample: a user-data file whose text `"[]"` is non-empty and
parses to a sequence (not a mapping) nevertheless yields TWO errors — the
falsy parse result is coerced to an empty mapping by `safe_load(text) or
\x7b\x7d`, so the marker warning survives and the missing-`autoinstall`
error (not the wrong-root-type error) follows. -/
theorem validate_user_data_nonmap_root_cex :
    read_text (fsOne "hosts/h/user-data" "[]") "hosts/h/user-data" = "[]" ∧
    slConst (Yaml.seq []) "[]" = Except.ok (Yaml.seq []) ∧
    validate_user_data (slConst (Yaml.seq [])) (ieConst []) (ratioConst 0)
      (fsOne "hosts/h/user-data" "[]") "hosts/h/user-data" () =
      ["user-data: first line should start with #cloud-config",
       "user-data: missing top-level \x27autoinstall\x27 key"] :=
  ⟨rfl, rfl, by decide⟩

/-- C3 (amended): for non-empty text, a YAML parse failure short-circuits
with exactly the single parse error, and a parse result that is a
*truthy* non-mapping value short-circuits with exactly the single
wrong-root-type error; in both cases no identity-check and no
schema-conformance error is produced.  (A falsy non-mapping root — null,
false, 0, empty string, empty sequence — is instead coerced to an empty
mapping and falls through to the missing-`autoinstall` error, preceded by
the marker warning when the marker is absent.) -/
theorem validate_user_data_short_circuit_amended {σ : Type}
    (safe_load : String → Except String Yaml) (iter_errors : σ → Yaml → List SchemaViolation)
    (ratio : String → String → ℚ) (fs : String → Option String) (user_path : String) (schema : σ)
    (htext : read_text fs user_path ≠ "") :
    (∀ exc, safe_load (read_text fs user_path) = Except.error exc →
      validate_user_data safe_load iter_errors ratio fs user_path schema =
        [s!"user-data: invalid YAML ({exc})"]) ∧
    (∀ v, safe_load (read_text fs user_path) = Except.ok v → yamlFalsy v = false →
      (∀ entries, v ≠ Yaml.map entries) →
      validate_user_data safe_load iter_errors ratio fs user_path schema =
        ["user-data: expected a YAML mapping at top-level"]) :=
  ⟨fun exc h =>
      validate_user_data_parse_error safe_load iter_errors ratio fs user_path schema exc htext h,
   fun v h hf hn =>
      validate_user_data_nonmap_root safe_load iter_errors ratio fs user_path schema v htext h hf hn⟩

/-- Closed witness for `validate_user_data_short_circuit_amended`: a
failing parse yields exactly the single invalid-YAML error, and a truthy
sequence root yields exactly the single wrong-root-type error. -/
theorem validate_user_data_short_circuit_amended_witness :
    validate_user_data (slFail "boom") (ieConst []) (ratioConst 0)
        (fsOne "hosts/h/user-data" "x") "hosts/h/user-data" () =
      ["user-data: invalid YAML (boom)"] ∧
    validate_user_data (slConst (Yaml.seq [Yaml.null])) (ieConst []) (ratioConst 0)
        (fsOne "hosts/h/user-data" "x") "hosts/h/user-data" () =
      ["user-data: expected a YAML mapping at top-level"] :=
  ⟨(validate_user_data_short_circuit_amended (slFail "boom") (ieConst []) (ratioConst 0)
      (fsOne "hosts/h/user-data" "x") "hosts/h/user-data" () (by decide)).1 "boom" rfl,
   (validate_user_data_short_circuit_amended (slConst (Yaml.seq [Yaml.null])) (ieConst [])
      (ratioConst 0) (fsOne "hosts/h/user-data" "x") "hosts/h/user-data" () (by decide)).2
      (Yaml.seq [Yaml.null]) rfl (by decide) (fun entries h => by cases h)⟩

/-- C4 counterexample: a mapping root lacking `autoinstall` in a document
without the `#cloud-config` marker produces TWO errors, not exactly one —
the marker warning is kept in front of the missing-`autoinstall` error. -/
theorem validate_user_data_missing_autoinstall_cex :
    slConst (Yaml.map [("foo", Yaml.str "bar")]) "foo: bar\n" =
      Except.ok (Yaml.map [("foo", Yaml.str "bar")]) ∧
    validate_user_data (slConst (Yaml.map [("foo", Yaml.str "bar")])) (ieConst []) (ratioConst 0)
      (fsOne "hosts/h/user-data" "foo: bar\n") "hosts/h/user-data" () =
      ["user-data: first line should start with #cloud-config",
       "user-data: missing top-level \x27autoinstall\x27 key"] :=
  ⟨rfl, by decide⟩

/-- C4 (amended): for a configuration document with a mapping root on
which `get("autoinstall")` yields null (in particular when the key is
absent), the result is the missing-`autoinstall` error preceded exactly
by the marker warning when the marker is absent; when the marker is
present it is exactly the single missing-`autoinstall` error.  The check
short-circuits: no identity-check error and no schema violation follows. -/
theorem validate_user_data_missing_autoinstall_amended {σ : Type}
    (safe_load : String → Except String Yaml) (iter_errors : σ → Yaml → List SchemaViolation)
    (ratio : String → String → ℚ) (fs : String → Option String) (user_path : String) (schema : σ)
    (m : List (String × Yaml))
    (htext : read_text fs user_path ≠ "")
    (hload : safe_load (read_text fs user_path) = Except.ok (Yaml.map m))
    (hget : yamlMapGet m "autoinstall" = Yaml.null) :
    validate_user_data safe_load iter_errors ratio fs user_path schema =
      markerErrors (read_text fs user_path) ++
        ["user-data: missing top-level \x27autoinstall\x27 key"] ∧
    (hasCloudConfigMarker (read_text fs user_path) = true →
      validate_user_data safe_load iter_errors ratio fs user_path schema =
        ["user-data: missing top-level \x27autoinstall\x27 key"]) := by
  have h := validate_user_data_map_root safe_load iter_errors ratio fs user_path schema m
    htext hload
  rw [hget] at h
  refine ⟨h, ?_⟩
  intro hmark
  rw [h]
  simp [markerErrors, hmark]

/-- Closed witness for `validate_user_data_missing_autoinstall_amended`:
with the marker present and `autoinstall` absent, exactly the single
missing-`autoinstall` error is produced. -/
theorem validate_user_data_missing_autoinstall_amended_witness :
    validate_user_data (slConst (Yaml.map [("foo", Yaml.str "bar")])) (ieConst []) (ratioConst 0)
        (fsOne "hosts/h/user-data" "#cloud-config\nfoo: bar\n") "hosts/h/user-data" () =
      ["user-data: missing top-level \x27autoinstall\x27 key"] :=
  (validate_user_data_missing_autoinstall_amended (slConst (Yaml.map [("foo", Yaml.str "bar")]))
    (ieConst []) (ratioConst 0) (fsOne "hosts/h/user-data" "#cloud-config\nfoo: bar\n")
    "hosts/h/user-data" () [("foo", Yaml.str "bar")] (by decide) rfl rfl).2 (by decide)

/-- C9: a root mapping carrying `autoinstall` with a null value is treated
exactly like one lacking the key: the missing-`autoinstall` error is
reported (after the possible marker warning), the check short-circuits,
and the output coincides with that of any parse of the same text whose
root mapping has no `autoinstall` key at all. -/
theorem validate_user_data_null_autoinstall {σ : Type}
    (safe_load : String → Except String Yaml) (iter_errors : σ → Yaml → List SchemaViolation)
    (ratio : String → String → ℚ) (fs : String → Option String) (user_path : String) (schema : σ)
    (m : List (String × Yaml))
    (htext : read_text fs user_path ≠ "")
    (hload : safe_load (read_text fs user_path) = Except.ok (Yaml.map m))
    (hfind : m.find? (fun p => p.1 == "autoinstall") = some ("autoinstall", Yaml.null)) :
    validate_user_data safe_load iter_errors ratio fs user_path schema =
      markerErrors (read_text fs user_path) ++
        ["user-data: missing top-level \x27autoinstall\x27 key"] ∧
    (∀ (safe_load' : String → Except String Yaml) (m' : List (String × Yaml)),
      safe_load' (read_text fs user_path) = Except.ok (Yaml.map m') →
      m'.find? (fun p => p.1 == "autoinstall") = none →
      validate_user_data safe_load' iter_errors ratio fs user_path schema =
        validate_user_data safe_load iter_errors ratio fs user_path schema) := by
  have hget : yamlMapGet m "autoinstall" = Yaml.null := by
    simp [yamlMapGet, hfind]
  have h := validate_user_data_map_root safe_load iter_errors ratio fs user_path schema m
    htext hload
  rw [hget] at h
  refine ⟨h, ?_⟩
  intro safe_load' m' hload' hfind'
  have hget' : yamlMapGet m' "autoinstall" = Yaml.null := by
    simp [yamlMapGet, hfind']
  have h' := validate_user_data_map_root safe_load' iter_errors ratio fs user_path schema m'
    htext hload'
  rw [hget'] at h'
  rw [h, h']

/-- Closed witness for `validate_user_data_null_autoinstall`: a concrete
document with `autoinstall: null` yields the missing-key error, preceded
by the marker warning since the marker is absent. -/
theorem validate_user_data_null_autoinstall_witness :
    validate_user_data (slConst (Yaml.map [("autoinstall", Yaml.null)])) (ieConst [])
        (ratioConst 0) (fsOne "hosts/h/user-data" "autoinstall: null\n") "hosts/h/user-data" () =
      ["user-data: first line should start with #cloud-config",
       "user-data: missing top-level \x27autoinstall\x27 key"] := by
  have h := (validate_user_data_null_autoinstall (slConst (Yaml.map [("autoinstall", Yaml.null)]))
    (ieConst []) (ratioConst 0) (fsOne "hosts/h/user-data" "autoinstall: null\n")
    "hosts/h/user-data" () [("autoinstall", Yaml.null)] (by decide) rfl rfl).1
  rw [h]
  decide

/-- C5: when the `autoinstall` mapping lacks `identity`, exactly one
identity error is emitted — a "did you mean" suggestion naming the best
fuzzy candidate when one reaches the 0.8 cutoff (best = maximal
`(ratio, key)` pair, as `heapq.nlargest` computes), a plain missing-key
error otherwise — the check does not short-circuit, and the sorted schema
violations are appended after it. -/
theorem validate_user_data_missing_identity_spec {σ : Type}
    (safe_load : String → Except String Yaml) (iter_errors : σ → Yaml → List SchemaViolation)
    (ratio : String → String → ℚ) (fs : String → Option String) (user_path : String) (schema : σ)
    (m ai : List (String × Yaml))
    (htext : read_text fs user_path ≠ "")
    (hload : safe_load (read_text fs user_path) = Except.ok (Yaml.map m))
    (hget : yamlMapGet m "autoinstall" = Yaml.map ai)
    (hid : ai.any (fun p => p.1 == "identity") = false) :
    (∃ e, identityErrors ratio ai = [e] ∧
      validate_user_data safe_load iter_errors ratio fs user_path schema =
        markerErrors (read_text fs user_path) ++ [e] ++
          schemaMessages iter_errors schema (Yaml.map ai) ∧
      ((∃ K, get_close_matches1 ratio "identity" (ai.map (fun p => p.1)) (mkRat 4 5) = some K ∧
          e = s!"user-data.autoinstall: missing \x27identity\x27 (did you mean \x27{K}\x27?)") ∨
       (get_close_matches1 ratio "identity" (ai.map (fun p => p.1)) (mkRat 4 5) = none ∧
          e = "user-data.autoinstall: missing \x27identity\x27"))) ∧
    (∀ K, get_close_matches1 ratio "identity" (ai.map (fun p => p.1)) (mkRat 4 5) = some K →
      K ∈ ai.map (fun p => p.1) ∧ mkRat 4 5 ≤ ratio K "identity" ∧
      ∀ k ∈ ai.map (fun p => p.1), mkRat 4 5 ≤ ratio k "identity" →
        ratioPairLt ratio "identity" K k = false) ∧
    (get_close_matches1 ratio "identity" (ai.map (fun p => p.1)) (mkRat 4 5) = none →
      ∀ k ∈ ai.map (fun p => p.1), ¬ (mkRat 4 5 ≤ ratio k "identity")) := by
  have h := validate_user_data_map_root safe_load iter_errors ratio fs user_path schema m
    htext hload
  rw [hget] at h
  refine ⟨?_, ?_, ?_⟩
  · cases hc : get_close_matches1 ratio "identity" (ai.map (fun p => p.1)) (mkRat 4 5) with
    | some K =>
      refine ⟨s!"user-data.autoinstall: missing \x27identity\x27 (did you mean \x27{K}\x27?)",
        ?_, ?_, ?_⟩
      · simp [identityErrors, hid, hc]
      · rw [h]
        simp [identityErrors, hid, hc]
      · exact Or.inl ⟨K, rfl, rfl⟩
    | none =>
      refine ⟨"user-data.autoinstall: missing \x27identity\x27", ?_, ?_, ?_⟩
      · simp [identityErrors, hid, hc]
      · rw [h]
        simp [identityErrors, hid, hc]
      · exact Or.inr ⟨rfl, rfl⟩
  · intro K hK
    exact get_close_matches1_some ratio "identity" (ai.map (fun p => p.1)) (mkRat 4 5) K hK
  · intro hnone
    exact get_close_matches1_none ratio "identity" (ai.map (fun p => p.1)) (mkRat 4 5) hnone

/-- Closed witness for `validate_user_data_missing_identity_spec`: an
`autoinstall` mapping whose only key is `identity2` (similarity 0.9)
yields exactly the did-you-mean error, and schema validation still ran
(its empty violation list is appended). -/
theorem validate_user_data_missing_identity_spec_witness :
    validate_user_data (slConst (Yaml.map [("autoinstall", Yaml.map [("identity2", Yaml.str "x")])]))
        (ieConst []) (ratioIs "identity2" (mkRat 9 10))
        (fsOne "hosts/h/user-data" "#cloud-config\nautoinstall:\n  identity2: x\n")
        "hosts/h/user-data" () =
      ["user-data.autoinstall: missing \x27identity\x27 (did you mean \x27identity2\x27?)"] := by
  obtain ⟨e, he1, he2, he3⟩ :=
    (validate_user_data_missing_identity_spec
      (slConst (Yaml.map [("autoinstall", Yaml.map [("identity2", Yaml.str "x")])]))
      (ieConst []) (ratioIs "identity2" (mkRat 9 10))
      (fsOne "hosts/h/user-data" "#cloud-config\nautoinstall:\n  identity2: x\n")
      "hosts/h/user-data" ()
      [("autoinstall", Yaml.map [("identity2", Yaml.str "x")])]
      [("identity2", Yaml.str "x")]
      (by decide) rfl rfl (by decide)).1
  have hv : get_close_matches1 (ratioIs "identity2" (mkRat 9 10)) "identity"
      ([("identity2", Yaml.str "x")].map (fun p : String × Yaml => p.1)) (mkRat 4 5) =
      some "identity2" := by decide
  rw [he2]
  rcases he3 with ⟨K, hK, heq⟩ | ⟨hnone, heq⟩
  · rw [hv] at hK
    have hKe : K = "identity2" := by
      injection hK with h
      exact h.symm
    rw [heq, hKe]
    simp +decide [markerErrors, schemaMessages, ieConst, List.mergeSort_nil]
  · rw [hv] at hnone
    cases hnone

/-- C6: for a fixed schema and `autoinstall` sub-document, the
schema-message portion is the stable path-sort of *all* violations the
evaluator produced (a permutation of them, pairwise ordered by path), and
the whole result depends only on the file's text — identical inputs give
identical error sequences. -/
theorem validate_user_data_schema_sorted_spec {σ : Type}
    (safe_load : String → Except String Yaml) (iter_errors : σ → Yaml → List SchemaViolation)
    (ratio : String → String → ℚ) (fs : String → Option String) (user_path : String) (schema : σ)
    (m ai : List (String × Yaml))
    (htext : read_text fs user_path ≠ "")
    (hload : safe_load (read_text fs user_path) = Except.ok (Yaml.map m))
    (hget : yamlMapGet m "autoinstall" = Yaml.map ai) :
    validate_user_data safe_load iter_errors ratio fs user_path schema =
      markerErrors (read_text fs user_path) ++ identityErrors ratio ai ++
        schemaMessages iter_errors schema (Yaml.map ai) ∧
    schemaMessages iter_errors schema (Yaml.map ai) =
      (List.mergeSort (iter_errors schema (Yaml.map ai)) violationLe).map formatViolation ∧
    (List.mergeSort (iter_errors schema (Yaml.map ai)) violationLe).Perm
      (iter_errors schema (Yaml.map ai)) ∧
    List.Pairwise (fun a b => violationLe a b = true)
      (List.mergeSort (iter_errors schema (Yaml.map ai)) violationLe) ∧
    (∀ fs' : String → Option String, read_text fs' user_path = read_text fs user_path →
      validate_user_data safe_load iter_errors ratio fs' user_path schema =
        validate_user_data safe_load iter_errors ratio fs user_path schema) := by
  have h := validate_user_data_map_root safe_load iter_errors ratio fs user_path schema m
    htext hload
  rw [hget] at h
  refine ⟨h, rfl, List.mergeSort_perm _ _, ?_, ?_⟩
  · exact List.sorted_mergeSort
      (fun a b c h1 h2 => violationLe_trans a b c h1 h2)
      (fun a b => violationLe_total a b) _
  · intro fs' hfs'
    simp only [validate_user_data, hfs']

/-- Closed witness for `validate_user_data_schema_sorted_spec`: both of
two violations (paths `a` and `b`) are reported, in path order, after no
identity error (identity present) for a marker-carrying document. -/
theorem validate_user_data_schema_sorted_spec_witness :
    validate_user_data (slConst (Yaml.map [("autoinstall", Yaml.map [("identity", Yaml.null)])]))
        (ieConst [⟨[PathElem.key "a"], "m2"⟩, ⟨[PathElem.key "b"], "m1"⟩]) (ratioConst 0)
        (fsOne "hosts/h/user-data" "#cloud-config\nautoinstall:\n  identity: x\n")
        "hosts/h/user-data" () =
      ["user-data.autoinstall: a: m2", "user-data.autoinstall: b: m1"] := by
  have H := (validate_user_data_schema_sorted_spec
    (slConst (Yaml.map [("autoinstall", Yaml.map [("identity", Yaml.null)])]))
    (ieConst [⟨[PathElem.key "a"], "m2"⟩, ⟨[PathElem.key "b"], "m1"⟩]) (ratioConst 0)
    (fsOne "hosts/h/user-data" "#cloud-config\nautoinstall:\n  identity: x\n")
    "hosts/h/user-data" ()
    [("autoinstall", Yaml.map [("identity", Yaml.null)])]
    [("identity", Yaml.null)]
    (by decide) rfl rfl).1
  rw [H]
  have hs : List.mergeSort
      (ieConst [⟨[PathElem.key "a"], "m2"⟩, ⟨[PathElem.key "b"], "m1"⟩] ()
        (Yaml.map [("identity", Yaml.null)])) violationLe =
      [⟨[PathElem.key "a"], "m2"⟩, ⟨[PathElem.key "b"], "m1"⟩] :=
    List.mergeSort_of_sorted (by decide)
  simp only [schemaMessages, hs]
  decide

/-- C7: `validate_host` returns the directory's base name paired with the
metadata errors of `<dir>/meta-data` followed by the configuration errors
of `<dir>/user-data`; both validators contribute unconditionally. -/
theorem validate_host_composition {σ : Type}
    (safe_load : String → Except String Yaml) (iter_errors : σ → Yaml → List SchemaViolation)
    (ratio : String → String → ℚ) (fs : String → Option String)
    (host_dir : String) (schema : σ) :
    validate_host safe_load iter_errors ratio fs host_dir schema =
      (basename (rstripSlash host_dir),
       validate_meta fs (pathJoin host_dir "meta-data") ++
         validate_user_data safe_load iter_errors ratio fs (pathJoin host_dir "user-data") schema) :=
  rfl

/-- C8: with fail-fast on, hosts are visited in the sorted discovery
order; the run prints the passing prefix and the first failing host's
block, exits 1, and its behaviour is independent of everything ordered
after the first failing host. -/
theorem fail_fast_stops_at_first_failure {σ : Type} (jsonLoads : String → Except String σ)
    (safe_load : String → Except String Yaml) (iter_errors : σ → Yaml → List SchemaViolation)
    (ratio : String → String → ℚ) (fs : String → Option String)
    (isdir : String → Bool) (listdir : String → List String)
    (hosts_dir schema_path : String) (schema : σ)
    (pre post : List String) (h : String)
    (hok : load_schema jsonLoads fs schema_path = Except.ok schema)
    (hdirs : find_host_dirs isdir listdir hosts_dir = pre ++ h :: post)
    (hpre : ∀ d ∈ pre, (validate_host safe_load iter_errors ratio fs d schema).2 = [])
    (hfail : (validate_host safe_load iter_errors ratio fs h schema).2 ≠ []) :
    main_fn jsonLoads safe_load iter_errors ratio fs isdir listdir hosts_dir schema_path true =
      (pre.map (fun d => okLine (validate_host safe_load iter_errors ratio fs d schema).1) ++
        failBlock (validate_host safe_load iter_errors ratio fs h schema).1
          (validate_host safe_load iter_errors ratio fs h schema).2, 1) ∧
    runHosts (fun d => validate_host safe_load iter_errors ratio fs d schema) true
        (pre ++ h :: post) =
      runHosts (fun d => validate_host safe_load iter_errors ratio fs d schema) true
        (pre ++ [h]) ∧
    List.Pairwise (fun a b => pyStrLt b a = false) (pre ++ h :: post) := by
  have hstop := runHosts_fail_fast_stop
    (fun d => validate_host safe_load iter_errors ratio fs d schema) h post hfail
  have hstop1 := runHosts_fail_fast_stop
    (fun d => validate_host safe_load iter_errors ratio fs d schema) h [] hfail
  have happ := runHosts_append_pass
    (fun d => validate_host safe_load iter_errors ratio fs d schema) true pre (h :: post) hpre
  have happ1 := runHosts_append_pass
    (fun d => validate_host safe_load iter_errors ratio fs d schema) true pre [h] hpre
  refine ⟨?_, ?_, ?_⟩
  · simp only [main_fn, hok, hdirs]
    have hne : (pre ++ h :: post).isEmpty = false := by
      cases pre <;> rfl
    rw [hne]
    simp only [Bool.false_eq_true, if_false, happ, hstop]
    rfl
  · rw [happ, happ1, hstop, hstop1]
  · rw [← hdirs]
    exact find_host_dirs_sorted isdir listdir hosts_dir

/-- Closed witness for `fail_fast_stops_at_first_failure`: two hosts with
no seed files sort as `host-a`, `host-b`; with fail-fast only `host-a`'s
failure block is printed and the exit code is 1. -/
theorem fail_fast_stops_at_first_failure_witness :
    main_fn jlUnit (slFail "x") (ieConst []) (ratioConst 0) fsTwoHosts isdirTwoHosts
        listdirTwoHosts "hosts" "schema.json" true =
      (["[FAIL] host-a", "  - meta-data missing or empty", "  - user-data missing or empty"], 1) := by
  have hdirs : find_host_dirs isdirTwoHosts listdirTwoHosts "hosts" =
      [] ++ "hosts/host-a" :: ["hosts/host-b"] := by
    unfold find_host_dirs
    rw [List.mergeSort_of_sorted (by decide)]
    decide
  have H := (fail_fast_stops_at_first_failure jlUnit (slFail "x") (ieConst []) (ratioConst 0)
    fsTwoHosts isdirTwoHosts listdirTwoHosts "hosts" "schema.json" () [] ["hosts/host-b"]
    "hosts/host-a" rfl hdirs (by intro d hd; cases hd) (by decide)).1
  rw [H]
  decide

/-- C10: a missing `#cloud-config` marker is a real validation error: for
a host whose user-data lacks the marker but is otherwise fully valid
(mapping root, `autoinstall` mapping with `identity`, no schema
violations) and whose metadata is valid, the host's error sequence is
exactly the marker warning, the host is reported with a [FAIL] line, and
the run exits 1. -/
theorem marker_missing_is_error {σ : Type} (jsonLoads : String → Except String σ)
    (safe_load : String → Except String Yaml) (iter_errors : σ → Yaml → List SchemaViolation)
    (ratio : String → String → ℚ) (fs : String → Option String)
    (isdir : String → Bool) (listdir : String → List String)
    (hosts_dir schema_path : String) (schema : σ) (host_dir : String)
    (m ai : List (String × Yaml))
    (hok : load_schema jsonLoads fs schema_path = Except.ok schema)
    (hmem : host_dir ∈ find_host_dirs isdir listdir hosts_dir)
    (htext : read_text fs (pathJoin host_dir "user-data") ≠ "")
    (hmark : hasCloudConfigMarker (read_text fs (pathJoin host_dir "user-data")) = false)
    (hload : safe_load (read_text fs (pathJoin host_dir "user-data")) = Except.ok (Yaml.map m))
    (hget : yamlMapGet m "autoinstall" = Yaml.map ai)
    (hid : ai.any (fun p => p.1 == "identity") = true)
    (hschema : iter_errors schema (Yaml.map ai) = [])
    (hmeta : validate_meta fs (pathJoin host_dir "meta-data") = []) :
    (validate_host safe_load iter_errors ratio fs host_dir schema).2 =
      ["user-data: first line should start with #cloud-config"] ∧
    failLine (validate_host safe_load iter_errors ratio fs host_dir schema).1 ∈
      (main_fn jsonLoads safe_load iter_errors ratio fs isdir listdir hosts_dir schema_path
        false).1 ∧
    (main_fn jsonLoads safe_load iter_errors ratio fs isdir listdir hosts_dir schema_path
      false).2 = 1 := by
  have hu := validate_user_data_map_root safe_load iter_errors ratio fs
    (pathJoin host_dir "user-data") schema m htext hload
  rw [hget] at hu
  have hie : identityErrors ratio ai = [] := by simp [identityErrors, hid]
  have hsm : schemaMessages iter_errors schema (Yaml.map ai) = [] := by
    simp [schemaMessages, hschema, List.mergeSort_nil]
  have hme : markerErrors (read_text fs (pathJoin host_dir "user-data")) =
      ["user-data: first line should start with #cloud-config"] := by
    simp [markerErrors, hmark]
  have hu2 : validate_user_data safe_load iter_errors ratio fs (pathJoin host_dir "user-data")
      schema =
      markerErrors (read_text fs (pathJoin host_dir "user-data")) ++ identityErrors ratio ai ++
        schemaMessages iter_errors schema (Yaml.map ai) := by rw [hu]
  rw [hie, hsm, hme] at hu2
  simp only [List.append_nil] at hu2
  have hvh : (validate_host safe_load iter_errors ratio fs host_dir schema).2 =
      ["user-data: first line should start with #cloud-config"] := by
    simp [validate_host, hmeta, hu2]
  have hmf := runHosts_mem_fail (fun d => validate_host safe_load iter_errors ratio fs d schema)
    (find_host_dirs isdir listdir hosts_dir) host_dir hmem (by rw [hvh]; simp)
  have hne : (find_host_dirs isdir listdir hosts_dir).isEmpty = false := by
    cases hfd : find_host_dirs isdir listdir hosts_dir with
    | nil => rw [hfd] at hmem; cases hmem
    | cons a as => rfl
  refine ⟨hvh, ?_, ?_⟩
  · simp only [main_fn, hok, hne, Bool.false_eq_true, if_false]
    exact hmf.1
  · simp only [main_fn, hok, hne, Bool.false_eq_true, if_false, hmf.2]
    rfl

/-- Closed witness for `marker_missing_is_error`: the `fsHost` tree (one
host `web01`, user-data without the marker, otherwise valid) yields the
FAIL line and exit code 1. -/
theorem marker_missing_is_error_witness :
    (validate_host (slConst yamlHost) (ieConst []) (ratioConst 0) fsHost "hosts/web01" ()).2 =
      ["user-data: first line should start with #cloud-config"] ∧
    "[FAIL] web01" ∈ (main_fn jlUnit (slConst yamlHost) (ieConst []) (ratioConst 0) fsHost
      isdirHost listdirHost "hosts" "schema.json" false).1 ∧
    (main_fn jlUnit (slConst yamlHost) (ieConst []) (ratioConst 0) fsHost isdirHost listdirHost
      "hosts" "schema.json" false).2 = 1 := by
  have hmem : "hosts/web01" ∈ find_host_dirs isdirHost listdirHost "hosts" := by
    have hdirs : find_host_dirs isdirHost listdirHost "hosts" = ["hosts/web01"] := by
      unfold find_host_dirs
      rw [List.mergeSort_of_sorted (by decide)]
      decide
    rw [hdirs]
    exact List.mem_singleton.mpr rfl
  have H := marker_missing_is_error jlUnit (slConst yamlHost) (ieConst []) (ratioConst 0) fsHost
    isdirHost listdirHost "hosts" "schema.json" () "hosts/web01"
    [("autoinstall", Yaml.map [("identity", Yaml.map [("hostname", Yaml.str "web01")])])]
    [("identity", Yaml.map [("hostname", Yaml.str "web01")])]
    rfl hmem (by decide) (by decide) rfl rfl (by decide) rfl (by decide)
  refine ⟨H.1, ?_, H.2.2⟩
  have : failLine (validate_host (slConst yamlHost) (ieConst []) (ratioConst 0) fsHost
      "hosts/web01" ()).1 = "[FAIL] web01" := by decide
  rw [← this]
  exact H.2.1
